import Mathlib

/-!
Shallow embedding of the client script `src/static/js/script.js` of the
speech-to-isl-web repository, together with proofs about the embedded
operations.  Times are modelled as naturals (milliseconds), byte buffers
as lists of naturals, and the DOM state touched by the script as explicit
record fields.  Asynchronous completion of a fetch is modelled by an
explicit outcome value handed to the embedded handler; the microphone
recording lifecycle is modelled as an event-step relation on an
application state.
-/

/-- ECMAScript whitespace recognised by `String.prototype.trim`:
TAB, LF, VT, FF, CR, SP, NBSP, the Zs space separators, LS, PS and
ZWNBSP. -/
def isJsWhitespace (c : Char) : Bool :=
  c.toNat = 9 || c.toNat = 10 || c.toNat = 11 || c.toNat = 12 ||
  c.toNat = 13 || c.toNat = 32 || c.toNat = 160 || c.toNat = 0x1680 ||
  (0x2000 ≤ c.toNat && c.toNat ≤ 0x200A) || c.toNat = 0x202F ||
  c.toNat = 0x205F || c.toNat = 0x3000 || c.toNat = 0x2028 ||
  c.toNat = 0x2029 || c.toNat = 0xFEFF

/-- JavaScript `s.trim()`: drop leading and trailing whitespace. -/
def jsTrim (s : String) : String :=
  String.mk (((s.data.dropWhile isJsWhitespace).reverse.dropWhile
    isJsWhitespace).reverse)

/-- A value appended to a `FormData`: a plain string, a `File` handle
(opaque bytes), or a `Blob` built with an explicit mime type. -/
inductive FormValue
  | str (s : String)
  | file (bytes : List Nat)
  | blob (bytes : List Nat) (mimeType : String)
deriving DecidableEq

/-- One outbound `fetch` request: target route and multipart fields. -/
structure Request where
  url : String
  fields : List (String × FormValue)
deriving DecidableEq

/-- The JSON payload returned by the backend, shape
`{status, english_text, isl_text, video_path}`; the three optional
fields are absent (`none`) when the server omits them. -/
structure ResultPayload where
  status : String
  english_text : Option String
  isl_text : Option String
  video_path : Option String
deriving DecidableEq

/-- Settlement of one fetch-then-parse pipeline: `ok data` when the
response arrived and parsed as JSON, `err` when the network request or
the JSON parse rejected. -/
inductive NetOutcome
  | ok (data : ResultPayload)
  | err
deriving DecidableEq

/-- The DOM state touched by the script: the loading overlay, the
recording affordances, the results panel, plus logs of the requests
dispatched and of the error notices spawned by `showError`.  Hidden
flags model presence of the `d-none` class. -/
structure PageState where
  loadingHidden : Bool
  startBtnHidden : Bool
  stopBtnHidden : Bool
  startBtnRecordingClass : Bool
  recordingStatusText : String
  timerHidden : Bool
  englishTextResult : String
  islTextResult : String
  islVideoSrc : String
  resultsHidden : Bool
  requests : List Request
  notices : List String
deriving DecidableEq

/-- JavaScript `a || b` for a possibly-absent string field: the fallback
is used when the field is absent or the empty string (both falsy). -/
def jsStringOr (field : Option String) (fallback : String) : String :=
  match field with
  | some s => if s = "" then fallback else s
  | none => fallback

/-- Embedding of `displayResults(data)`: fill both text results with
their fallbacks on falsy fields, set or clear the video source, reveal
the results section (scrolling is not part of the modelled state). -/
def displayResults (data : ResultPayload) (st : PageState) : PageState :=
  { st with
    englishTextResult := jsStringOr data.english_text "No text recognized"
    islTextResult := jsStringOr data.isl_text "No ISL conversion available"
    islVideoSrc :=
      match data.video_path with
      | some p => if p = "" then "" else "/static/" ++ p
      | none => ""
    resultsHidden := false }

/-- Whether `displayResults(data)` invokes `islVideo.load()`: exactly
when `data.video_path` is truthy (present and non-empty). -/
def displayResultsLoadsVideo (data : ResultPayload) : Bool :=
  match data.video_path with
  | some p => !(p = "")
  | none => false

/-- One observable primitive action performed by a submission handler,
in program order. -/
inductive JsAction
  | showLoading
  | hideLoading
  | dispatch (r : Request)
  | notify (message : String)
  | resetRecordingUI
  | render (data : ResultPayload)
deriving DecidableEq

/-- Effect of one primitive action on the page state.  `showLoading` and
`hideLoading` toggle the `d-none` class of the overlay; `dispatch` and
`notify` extend the corresponding logs; `resetRecordingUI` is the block
of five statements restoring the idle recording affordances; `render`
is `displayResults`. -/
def applyAction (st : PageState) (a : JsAction) : PageState :=
  match a with
  | JsAction.showLoading => { st with loadingHidden := false }
  | JsAction.hideLoading => { st with loadingHidden := true }
  | JsAction.dispatch r => { st with requests := st.requests ++ [r] }
  | JsAction.notify m => { st with notices := st.notices ++ [m] }
  | JsAction.resetRecordingUI =>
      { st with
        startBtnHidden := false
        stopBtnHidden := true
        recordingStatusText := "Click the microphone to start recording"
        timerHidden := true
        startBtnRecordingClass := false }
  | JsAction.render data => displayResults data st

/-- Run a handler trace against a page state, in order. -/
def runActions (acts : List JsAction) (st : PageState) : PageState :=
  acts.foldl applyAction st

/-- Embedding of `handleTextSubmit`: trim the input, silently return on
a falsy (empty) result, otherwise show the overlay, POST the trimmed
text to `/process_text`, and on settlement hide the overlay and either
render the payload or spawn the mode-specific error notice. -/
def handleTextSubmit (textInputRaw : String) (net : NetOutcome) :
    List JsAction :=
  let textInput := jsTrim textInputRaw
  if textInput = "" then []
  else
    JsAction.showLoading ::
    JsAction.dispatch
      { url := "/process_text", fields := [("text", FormValue.str textInput)] } ::
    match net with
    | NetOutcome.ok data =>
        JsAction.hideLoading ::
        (if data.status = "success" then [JsAction.render data]
         else [JsAction.notify "Failed to process text. Please try again."])
    | NetOutcome.err =>
        [JsAction.hideLoading,
         JsAction.notify "An error occurred. Please try again."]

/-- Embedding of `handleAudioUploadSubmit`: `audioFile` is
`files[0]` of the file input, absent when no file is chosen. -/
def handleAudioUploadSubmit (audioFile : Option (List Nat))
    (net : NetOutcome) : List JsAction :=
  match audioFile with
  | none => []
  | some f =>
    JsAction.showLoading ::
    JsAction.dispatch
      { url := "/process_audio", fields := [("audio", FormValue.file f)] } ::
    match net with
    | NetOutcome.ok data =>
        JsAction.hideLoading ::
        (if data.status = "success" then [JsAction.render data]
         else [JsAction.notify "Failed to process audio. Please try again."])
    | NetOutcome.err =>
        [JsAction.hideLoading,
         JsAction.notify "An error occurred. Please try again."]

/-- The request built by `processRecordedAudio`: a `Blob` over the
concatenation of the recorded chunks, mime `audio/webm`, POSTed to
`/record_audio` under field `audio`. -/
def recordRequest (audioChunks : List (List Nat)) : Request :=
  { url := "/record_audio",
    fields := [("audio", FormValue.blob audioChunks.flatten "audio/webm")] }

/-- Embedding of `processRecordedAudio`: show the overlay, dispatch the
blob request, and on settlement hide the overlay, reset the recording
affordances, then render or notify. -/
def processRecordedAudio (audioChunks : List (List Nat))
    (net : NetOutcome) : List JsAction :=
  JsAction.showLoading ::
  JsAction.dispatch (recordRequest audioChunks) ::
  match net with
  | NetOutcome.ok data =>
      JsAction.hideLoading ::
      JsAction.resetRecordingUI ::
      (if data.status = "success" then [JsAction.render data]
       else [JsAction.notify "Failed to process recording. Please try again."])
  | NetOutcome.err =>
      [JsAction.hideLoading,
       JsAction.resetRecordingUI,
       JsAction.notify "An error occurred. Please try again."]

/-- The three submission variants of the script, with the inputs their
handlers read from the DOM. -/
inductive Submission
  | text (input : String)
  | file (audioFile : Option (List Nat))
  | recording (audioChunks : List (List Nat))
deriving DecidableEq

/-- The handler trace of each submission variant. -/
def submitActions (sub : Submission) (net : NetOutcome) : List JsAction :=
  match sub with
  | Submission.text input => handleTextSubmit input net
  | Submission.file f => handleAudioUploadSubmit f net
  | Submission.recording cs => processRecordedAudio cs net

/-- The requests dispatched along a handler trace. -/
def requestsOf (acts : List JsAction) : List Request :=
  acts.filterMap fun a =>
    match a with
    | JsAction.dispatch r => some r
    | _ => none

/-- How many times a handler trace hides the loading overlay. -/
def hideCount (acts : List JsAction) : Nat :=
  acts.countP fun a =>
    match a with
    | JsAction.hideLoading => true
    | _ => false

/-- How many times a handler trace shows the loading overlay. -/
def showCount (acts : List JsAction) : Nat :=
  acts.countP fun a =>
    match a with
    | JsAction.showLoading => true
    | _ => false

/-- JavaScript `padStart(2, "0")` as used by the timer. -/
def padStart2 (s : String) : String :=
  if s.length < 2 then String.mk (List.replicate (2 - s.length) '0') ++ s
  else s

/-- Embedding of `updateRecordingTimer`, as a function of the current
instant and the recorded start instant (milliseconds). -/
def updateRecordingTimer (now recordingStartTime : Nat) : String :=
  let elapsedSeconds := (now - recordingStartTime) / 1000
  let minutes := padStart2 (Nat.repr (elapsedSeconds / 60))
  let seconds := padStart2 (Nat.repr (elapsedSeconds % 60))
  minutes ++ ":" ++ seconds

/-- A natural number zero-padded to width 2, written from the words of
the specification (refinement target for the timer claim). -/
def zeroPadWidth2 (n : Nat) : String :=
  let digits := Nat.repr n
  if digits.length < 2 then
    String.mk (List.replicate (2 - digits.length) '0') ++ digits
  else digits

/-- The `MM:SS` text the specification claims for a given elapsed
number of seconds: minutes are the floor of division by 60, seconds the
remainder, both zero-padded to width 2 (refinement target). -/
def claimedTimerText (elapsedSeconds : Nat) : String :=
  zeroPadWidth2 (elapsedSeconds / 60) ++ ":" ++ zeroPadWidth2 (elapsedSeconds % 60)

/-- One `MediaRecorder` object: `stopped` models `state === "inactive"`
(set synchronously by `stop()`), `stopFired` models delivery of its
`stop` event. -/
structure Recorder where
  stopped : Bool
  stopFired : Bool
deriving DecidableEq

/-- The whole client state for the recording lifecycle: the page, the
global `audioChunks` array, every `MediaRecorder` created so far (the
global `mediaRecorder` variable holds the index of the current one),
the number of unsettled `getUserMedia` promises, the number of
unsettled `/record_audio` uploads, and whether the timer interval is
running. -/
structure AppState where
  page : PageState
  audioChunks : List (List Nat)
  recorders : List Recorder
  mediaRecorder : Option Nat
  pendingPermission : Nat
  pendingUploads : Nat
  timerRunning : Bool
deriving DecidableEq

/-- Modelled from the spec: the initial DOM presentation of the page.
The markup `templates/index.html` is not under `src/`; the spec fixes
the idle presentation (start control visible, stop control and timer
hidden, idle status prompt, no recording highlight, overlay and results
hidden), matching the strings the script itself restores. -/
def initPage : PageState :=
  { loadingHidden := true
    startBtnHidden := false
    stopBtnHidden := true
    startBtnRecordingClass := false
    recordingStatusText := "Click the microphone to start recording"
    timerHidden := true
    englishTextResult := ""
    islTextResult := ""
    islVideoSrc := ""
    resultsHidden := true
    requests := []
    notices := [] }

/-- The client state when the page has just loaded. -/
def initApp : AppState :=
  { page := initPage
    audioChunks := []
    recorders := []
    mediaRecorder := none
    pendingPermission := 0
    pendingUploads := 0
    timerRunning := false }

/-- External stimuli of the recording lifecycle: user clicks (possible
only while the clicked control is visible) and asynchronous platform
events (permission settlement, chunk delivery, recorder stop
completion, upload settlement). -/
inductive Event
  | clickStart
  | permissionGrant
  | permissionDeny
  | dataAvailable (i : Nat) (chunk : List Nat)
  | clickStop
  | recorderStopEvent (i : Nat)
  | uploadSettle (net : NetOutcome)
deriving DecidableEq

/-- One step of the recording lifecycle, `none` when the event is not
enabled in the given state.  Each branch is read off the corresponding
handler in `script.js`:
`clickStart` invokes `startRecording` (only `getUserMedia` is
synchronous); `permissionGrant` is the fulfilled branch of
`getUserMedia` (recording UI shown, fresh recorder, `audioChunks`
reset, timer started); `permissionDeny` its rejected branch;
`dataAvailable` the `dataavailable` listener of a recorder whose stop
event has not yet fired; `clickStop` invokes `stopRecording` (no-op
without an active recorder); `recorderStopEvent` the `stop` listener
(clear interval, release tracks, then `processRecordedAudio`: show
overlay and dispatch the blob upload); `uploadSettle` the settlement of
that upload (hide overlay, reset recording UI, render or notify). -/
def step (s : AppState) (e : Event) : Option AppState :=
  match e with
  | Event.clickStart =>
      if s.page.startBtnHidden then none
      else some { s with pendingPermission := s.pendingPermission + 1 }
  | Event.permissionGrant =>
      if s.pendingPermission = 0 then none
      else some
        { s with
          page := { s.page with
            startBtnHidden := true
            stopBtnHidden := false
            recordingStatusText := "Recording..."
            timerHidden := false
            startBtnRecordingClass := true }
          recorders := s.recorders ++ [{ stopped := false, stopFired := false }]
          mediaRecorder := some s.recorders.length
          audioChunks := []
          timerRunning := true
          pendingPermission := s.pendingPermission - 1 }
  | Event.permissionDeny =>
      if s.pendingPermission = 0 then none
      else some
        { s with
          page := { s.page with notices := s.page.notices ++
            ["Could not access microphone. Please check your permissions."] }
          pendingPermission := s.pendingPermission - 1 }
  | Event.dataAvailable i chunk =>
      match s.recorders.get? i with
      | none => none
      | some r =>
          if r.stopFired then none
          else some { s with audioChunks := s.audioChunks ++ [chunk] }
  | Event.clickStop =>
      if s.page.stopBtnHidden then none
      else
        match s.mediaRecorder with
        | none => some s
        | some i =>
            match s.recorders.get? i with
            | none => some s
            | some r =>
                if r.stopped then some s
                else some
                  { s with
                    recorders := s.recorders.set i { r with stopped := true }
                    page := { s.page with
                      recordingStatusText := "Processing audio..." } }
  | Event.recorderStopEvent i =>
      match s.recorders.get? i with
      | none => none
      | some r =>
          if r.stopped && !r.stopFired then
            some
              { s with
                recorders := s.recorders.set i { r with stopFired := true }
                timerRunning := false
                page := { s.page with
                  loadingHidden := false
                  requests := s.page.requests ++ [recordRequest s.audioChunks] }
                pendingUploads := s.pendingUploads + 1 }
          else none
  | Event.uploadSettle net =>
      if s.pendingUploads = 0 then none
      else
        let p1 := { s.page with
          loadingHidden := true
          startBtnHidden := false
          stopBtnHidden := true
          recordingStatusText := "Click the microphone to start recording"
          timerHidden := true
          startBtnRecordingClass := false }
        let p2 :=
          match net with
          | NetOutcome.ok data =>
              if data.status = "success" then displayResults data p1
              else { p1 with notices := p1.notices ++
                ["Failed to process recording. Please try again."] }
          | NetOutcome.err =>
              { p1 with notices := p1.notices ++
                ["An error occurred. Please try again."] }
        some { s with page := p2, pendingUploads := s.pendingUploads - 1 }

/-- Run a list of events from a state; `none` as soon as one event is
not enabled. -/
def run (s : AppState) : List Event → Option AppState
  | [] => some s
  | e :: tr =>
      match step s e with
      | none => none
      | some s1 => run s1 tr

/-- The step relation restricted to serial starts: `clickStart` is
additionally enabled only while no `getUserMedia` promise is pending. -/
def stepSerial (s : AppState) (e : Event) : Option AppState :=
  match e with
  | Event.clickStart =>
      if s.pendingPermission = 0 then step s Event.clickStart else none
  | _ => step s e

/-- Run a list of events under the serial-start restriction. -/
def runSerial (s : AppState) : List Event → Option AppState
  | [] => some s
  | e :: tr =>
      match stepSerial s e with
      | none => none
      | some s1 => runSerial s1 tr

/-- Number of recorders currently capturing (state not `inactive`):
the active recording sessions. -/
def activeSessions (s : AppState) : Nat :=
  s.recorders.countP fun r => !r.stopped

/-- Number of recorders stopped whose `stop` event has not yet fired. -/
def stopsPending (s : AppState) : Nat :=
  s.recorders.countP fun r => r.stopped && !r.stopFired

/-- Active sessions of an optional state, zero for `none`. -/
def activeCountOpt (o : Option AppState) : Nat :=
  match o with
  | none => 0
  | some s => activeSessions s

/-- Whether the recording affordances show the idle presentation:
start control visible, stop control hidden, idle status prompt, timer
hidden, no recording highlight. -/
def isIdlePresentation (p : PageState) : Bool :=
  !p.startBtnHidden && p.stopBtnHidden &&
  (p.recordingStatusText == "Click the microphone to start recording") &&
  p.timerHidden && !p.startBtnRecordingClass

/-! ## Helper lemmas -/

/-- Rendering preserves a revealed results section across any sequence
of calls. -/
def renderSeq (ps : List ResultPayload) (st : PageState) : PageState :=
  ps.foldl (fun s data => displayResults data s) st

theorem renderSeq_keeps_revealed (ps : List ResultPayload) :
    ∀ st : PageState, st.resultsHidden = false →
      (renderSeq ps st).resultsHidden = false := by
  induction ps with
  | nil => intro st h; exact h
  | cons p ps ih =>
      intro st _
      exact ih (displayResults p st) (by simp [displayResults])

theorem two_le_zeroPadWidth2 (n : Nat) : 2 ≤ (zeroPadWidth2 n).length := by
  unfold zeroPadWidth2
  by_cases hd : (Nat.repr n).length < 2
  · simp only [hd, if_true]
    rw [String.length_append]
    have hmk : (String.mk (List.replicate (2 - (Nat.repr n).length) '0')).length
        = 2 - (Nat.repr n).length := by
      show (List.replicate (2 - (Nat.repr n).length) '0').length = _
      exact List.length_replicate _ _
    omega
  · simp only [hd, if_false]
    omega

/-! ## Claims about the three submission handlers -/

/-- C4: each submission variant is sent to its fixed route with its
fixed multipart field: trimmed text to `/process_text` under `text`,
the chosen file to `/process_audio` under `audio`, and a blob of mime
type `audio/webm` over the concatenated chunks to `/record_audio`
under `audio`. -/
theorem c4_routes_and_fields :
    (∀ (input : String) (net : NetOutcome), jsTrim input ≠ "" →
      requestsOf (handleTextSubmit input net) =
        [{ url := "/process_text",
           fields := [("text", FormValue.str (jsTrim input))] }]) ∧
    (∀ (f : List Nat) (net : NetOutcome),
      requestsOf (handleAudioUploadSubmit (some f) net) =
        [{ url := "/process_audio",
           fields := [("audio", FormValue.file f)] }]) ∧
    (∀ (cs : List (List Nat)) (net : NetOutcome),
      requestsOf (processRecordedAudio cs net) =
        [{ url := "/record_audio",
           fields := [("audio", FormValue.blob cs.flatten "audio/webm")] }]) := by
  refine ⟨?_, ?_, ?_⟩
  · intro input net hne
    cases net with
    | ok data =>
        by_cases hs : data.status = "success" <;>
          simp [handleTextSubmit, hne, hs, requestsOf]
    | err => simp [handleTextSubmit, hne, requestsOf]
  · intro f net
    cases net with
    | ok data =>
        by_cases hs : data.status = "success" <;>
          simp [handleAudioUploadSubmit, hs, requestsOf]
    | err => simp [handleAudioUploadSubmit, requestsOf]
  · intro cs net
    cases net with
    | ok data =>
        by_cases hs : data.status = "success" <;>
          simp [processRecordedAudio, hs, requestsOf, recordRequest]
    | err => simp [processRecordedAudio, requestsOf, recordRequest]

theorem c4_routes_and_fields_witness :
    requestsOf (handleTextSubmit " hello " NetOutcome.err) =
      [{ url := "/process_text",
         fields := [("text", FormValue.str (jsTrim " hello "))] }] ∧
    requestsOf (handleAudioUploadSubmit (some [1, 2]) NetOutcome.err) =
      [{ url := "/process_audio",
         fields := [("audio", FormValue.file [1, 2])] }] ∧
    requestsOf (processRecordedAudio [[1], [2, 3]] NetOutcome.err) =
      [{ url := "/record_audio",
         fields := [("audio",
           FormValue.blob ([[1], [2, 3]] : List (List Nat)).flatten
             "audio/webm")] }] :=
  ⟨c4_routes_and_fields.1 " hello " NetOutcome.err (by decide),
   c4_routes_and_fields.2.1 [1, 2] NetOutcome.err,
   c4_routes_and_fields.2.2 [[1], [2, 3]] NetOutcome.err⟩

/-- C6: blank text (empty after trimming) and a file form with no file
selected issue no actions at all: zero requests, zero notices, and the
page state (loading overlay included) is left unchanged. -/
theorem c6_empty_input_ignored (input : String) (net : NetOutcome)
    (st : PageState) (h : jsTrim input = "") :
    handleTextSubmit input net = [] ∧
    handleAudioUploadSubmit none net = [] ∧
    runActions (handleTextSubmit input net) st = st ∧
    runActions (handleAudioUploadSubmit none net) st = st := by
  refine ⟨?_, rfl, ?_, rfl⟩ <;> simp [handleTextSubmit, h, runActions]

theorem c6_empty_input_ignored_witness :
    handleTextSubmit "   " NetOutcome.err = [] ∧
    handleAudioUploadSubmit none NetOutcome.err = [] ∧
    runActions (handleTextSubmit "   " NetOutcome.err) initPage = initPage ∧
    runActions (handleAudioUploadSubmit none NetOutcome.err) initPage =
      initPage :=
  c6_empty_input_ignored "   " NetOutcome.err initPage (by decide)

/-- C10: the text payload sent to `/process_text` is the trimmed input,
so two inputs with the same trim produce identical handler behaviour,
and every dispatched request carries exactly the trimmed text. -/
theorem c10_payload_is_trimmed (a b : String) (net : NetOutcome)
    (h : jsTrim a = jsTrim b) :
    handleTextSubmit a net = handleTextSubmit b net ∧
    ∀ r ∈ requestsOf (handleTextSubmit a net),
      r.fields = [("text", FormValue.str (jsTrim a))] := by
  constructor
  · simp only [handleTextSubmit, h]
  · intro r hr
    by_cases hne : jsTrim a = ""
    · simp [handleTextSubmit, hne, requestsOf] at hr
    · cases net with
      | ok data =>
          by_cases hs : data.status = "success" <;>
            simp [handleTextSubmit, hne, hs, requestsOf] at hr <;>
            simp [hr]
      | err =>
          simp [handleTextSubmit, hne, requestsOf] at hr
          simp [hr]

theorem c10_payload_is_trimmed_witness :
    handleTextSubmit "  hello " NetOutcome.err =
      handleTextSubmit "hello" NetOutcome.err ∧
    ∀ r ∈ requestsOf (handleTextSubmit "  hello " NetOutcome.err),
      r.fields = [("text", FormValue.str (jsTrim "  hello "))] :=
  c10_payload_is_trimmed "  hello " "hello" NetOutcome.err (by decide)

/-! ## Claims about the timer -/

/-- C5: at any tick instant `t1` of a session started at `s`, the timer
renders exactly the claimed `MM:SS` text of `floor((t1 - s) / 1000)`
elapsed seconds (minutes the floor of division by 60, seconds the
remainder, both fields zero-padded to width 2), and across successive
ticks `t1 ≤ t2` the displayed elapsed value never decreases. -/
theorem c5_timer_text (s t1 t2 : Nat) (h1 : s ≤ t1) (h2 : t1 ≤ t2) :
    updateRecordingTimer t1 s = claimedTimerText ((t1 - s) / 1000) ∧
    2 ≤ (zeroPadWidth2 ((t1 - s) / 1000 / 60)).length ∧
    2 ≤ (zeroPadWidth2 ((t1 - s) / 1000 % 60)).length ∧
    (t1 - s) / 1000 ≤ (t2 - s) / 1000 := by
  refine ⟨rfl, two_le_zeroPadWidth2 _, two_le_zeroPadWidth2 _, ?_⟩
  exact Nat.div_le_div_right (Nat.sub_le_sub_right h2 s)

theorem c5_timer_text_witness :
    updateRecordingTimer 61000 0 = claimedTimerText ((61000 - 0) / 1000) ∧
    2 ≤ (zeroPadWidth2 ((61000 - 0) / 1000 / 60)).length ∧
    2 ≤ (zeroPadWidth2 ((61000 - 0) / 1000 % 60)).length ∧
    (61000 - 0) / 1000 ≤ (125000 - 0) / 1000 :=
  c5_timer_text 0 61000 125000 (by decide) (by decide)

/-! ## Claims about the result renderer -/

/-- A payload whose three optional fields are all present but empty:
JavaScript falsiness makes the renderer treat them as missing. -/
def emptyFieldsPayload : ResultPayload :=
  { status := "success"
    english_text := some ""
    isl_text := some ""
    video_path := some "" }

/-- C7 counterexample: on a payload whose `english_text`, `isl_text`
and `video_path` are all present (as empty strings), the renderer does
not set the English text to the present `english_text` value (it
renders the fallback instead), and does not set the media source to
the prefix joined with the present `video_path` (it clears it), so the
claim as stated is false at this input. -/
theorem c7_counterexample :
    (displayResults emptyFieldsPayload initPage).englishTextResult =
      "No text recognized" ∧
    (displayResults emptyFieldsPayload initPage).englishTextResult ≠
      emptyFieldsPayload.english_text.getD "missing" ∧
    (displayResults emptyFieldsPayload initPage).islTextResult =
      "No ISL conversion available" ∧
    (displayResults emptyFieldsPayload initPage).islVideoSrc = "" ∧
    (displayResults emptyFieldsPayload initPage).islVideoSrc ≠
      "/static/" ++ emptyFieldsPayload.video_path.getD "missing" := by
  refine ⟨rfl, ?_, rfl, rfl, ?_⟩ <;> decide

/-- C7 amended: the renderer sets the English text to `englishText`
when present and non-empty and to the literal fallback when missing or
empty; likewise for the ISL text; a present non-empty `videoPath` sets
the media source to `/static/` joined with the path and reloads the
media element, while an absent or empty `videoPath` clears the source
and does not reload. -/
theorem c7_render_fields (data : ResultPayload) (st : PageState) :
    (∀ s : String, data.english_text = some s → s ≠ "" →
      (displayResults data st).englishTextResult = s) ∧
    ((data.english_text = none ∨ data.english_text = some "") →
      (displayResults data st).englishTextResult = "No text recognized") ∧
    (∀ s : String, data.isl_text = some s → s ≠ "" →
      (displayResults data st).islTextResult = s) ∧
    ((data.isl_text = none ∨ data.isl_text = some "") →
      (displayResults data st).islTextResult = "No ISL conversion available") ∧
    (∀ v : String, data.video_path = some v → v ≠ "" →
      (displayResults data st).islVideoSrc = "/static/" ++ v ∧
      displayResultsLoadsVideo data = true) ∧
    ((data.video_path = none ∨ data.video_path = some "") →
      (displayResults data st).islVideoSrc = "" ∧
      displayResultsLoadsVideo data = false) := by
  refine ⟨?_, ?_, ?_, ?_, ?_, ?_⟩
  · intro s hs hne; simp [displayResults, jsStringOr, hs, hne]
  · rintro (h | h) <;> simp [displayResults, jsStringOr, h]
  · intro s hs hne; simp [displayResults, jsStringOr, hs, hne]
  · rintro (h | h) <;> simp [displayResults, jsStringOr, h]
  · intro v hv hne
    constructor <;> simp [displayResults, displayResultsLoadsVideo, hv, hne]
  · rintro (h | h) <;>
      constructor <;> simp [displayResults, displayResultsLoadsVideo, h]

/-- A payload with all fields present and non-empty, for the C7
witness. -/
def helloPayload : ResultPayload :=
  { status := "success"
    english_text := some "hello"
    isl_text := some "HELLO"
    video_path := some "signs/hello.mp4" }

theorem c7_render_fields_witness :
    (displayResults helloPayload initPage).englishTextResult = "hello" ∧
    (displayResults helloPayload initPage).islVideoSrc =
      "/static/" ++ "signs/hello.mp4" ∧
    displayResultsLoadsVideo helloPayload = true :=
  ⟨(c7_render_fields helloPayload initPage).1 "hello" rfl (by decide),
   ((c7_render_fields helloPayload initPage).2.2.2.2.1 "signs/hello.mp4"
     rfl (by decide)).1,
   ((c7_render_fields helloPayload initPage).2.2.2.2.1 "signs/hello.mp4"
     rfl (by decide)).2⟩

/-- C8: rendering the same payload twice in succession leaves exactly
the page state of rendering it once, whatever the starting state. -/
theorem c8_render_idempotent (data : ResultPayload) (st : PageState) :
    displayResults data (displayResults data st) = displayResults data st :=
  rfl

/-- C9: once a render has revealed the results section, no sequence of
later renders ever hides it again. -/
theorem c9_results_stay_revealed (first : ResultPayload)
    (later : List ResultPayload) (st : PageState) :
    (renderSeq later (displayResults first st)).resultsHidden = false :=
  renderSeq_keeps_revealed later (displayResults first st)
    (by simp [displayResults])

/-! ## Claim about the loading indicator -/

/-- C3: for a single submission of any variant, if the overlay is
hidden beforehand it is hidden again once the submission settles, and
whenever a request is dispatched the trace opens by showing the overlay
followed immediately by the dispatch, shows it exactly once, and hides
it exactly once in the terminating branch taken. -/
theorem c3_loading_lifecycle (sub : Submission) (net : NetOutcome)
    (st : PageState) (h : st.loadingHidden = true) :
    (runActions (submitActions sub net) st).loadingHidden = true ∧
    ∀ r : Request, JsAction.dispatch r ∈ submitActions sub net →
      showCount (submitActions sub net) = 1 ∧
      hideCount (submitActions sub net) = 1 ∧
      ∃ tail, submitActions sub net =
        JsAction.showLoading :: JsAction.dispatch r :: tail := by
  constructor
  · rcases sub with input | f | cs
    · by_cases hin : jsTrim input = ""
      · simpa [submitActions, handleTextSubmit, hin, runActions]
      · rcases net with ⟨data⟩ | _
        · by_cases hs : data.status = "success" <;>
            simp [submitActions, handleTextSubmit, hin, hs, runActions,
              applyAction, displayResults]
        · simp [submitActions, handleTextSubmit, hin, runActions, applyAction]
    · rcases f with _ | f
      · simpa [submitActions, handleAudioUploadSubmit, runActions]
      · rcases net with ⟨data⟩ | _
        · by_cases hs : data.status = "success" <;>
            simp [submitActions, handleAudioUploadSubmit, hs, runActions,
              applyAction, displayResults]
        · simp [submitActions, handleAudioUploadSubmit, runActions,
            applyAction]
    · rcases net with ⟨data⟩ | _
      · by_cases hs : data.status = "success" <;>
          simp [submitActions, processRecordedAudio, hs, runActions,
            applyAction, displayResults]
      · simp [submitActions, processRecordedAudio, runActions, applyAction]
  · intro r hr
    rcases sub with input | f | cs
    · by_cases hin : jsTrim input = ""
      · simp [submitActions, handleTextSubmit, hin] at hr
      · rcases net with ⟨data⟩ | _
        · by_cases hs : data.status = "success" <;>
            · simp [submitActions, handleTextSubmit, hin, hs] at hr
              subst hr
              refine ⟨?_, ?_, ?_⟩ <;>
                simp [submitActions, handleTextSubmit, hin, hs, showCount,
                  hideCount, List.countP_cons, List.countP_nil]
        · simp [submitActions, handleTextSubmit, hin] at hr
          subst hr
          refine ⟨?_, ?_, ?_⟩ <;>
            simp [submitActions, handleTextSubmit, hin, showCount,
              hideCount, List.countP_cons, List.countP_nil]
    · rcases f with _ | f
      · simp [submitActions, handleAudioUploadSubmit] at hr
      · rcases net with ⟨data⟩ | _
        · by_cases hs : data.status = "success" <;>
            · simp [submitActions, handleAudioUploadSubmit, hs] at hr
              subst hr
              refine ⟨?_, ?_, ?_⟩ <;>
                simp [submitActions, handleAudioUploadSubmit, hs, showCount,
                  hideCount, List.countP_cons, List.countP_nil]
        · simp [submitActions, handleAudioUploadSubmit] at hr
          subst hr
          refine ⟨?_, ?_, ?_⟩ <;>
            simp [submitActions, handleAudioUploadSubmit, showCount,
              hideCount, List.countP_cons, List.countP_nil]
    · rcases net with ⟨data⟩ | _
      · by_cases hs : data.status = "success" <;>
          · simp [submitActions, processRecordedAudio, hs] at hr
            subst hr
            refine ⟨?_, ?_, ?_⟩ <;>
              simp [submitActions, processRecordedAudio, hs, showCount,
                hideCount, List.countP_cons, List.countP_nil]
      · simp [submitActions, processRecordedAudio] at hr
        subst hr
        refine ⟨?_, ?_, ?_⟩ <;>
          simp [submitActions, processRecordedAudio, showCount,
            hideCount, List.countP_cons, List.countP_nil]

theorem c3_loading_lifecycle_witness :
    (runActions
      (submitActions (Submission.text "hi")
        (NetOutcome.ok helloPayload)) initPage).loadingHidden = true ∧
    ∀ r : Request,
      JsAction.dispatch r ∈
        submitActions (Submission.text "hi") (NetOutcome.ok helloPayload) →
      showCount
        (submitActions (Submission.text "hi") (NetOutcome.ok helloPayload)) = 1 ∧
      hideCount
        (submitActions (Submission.text "hi") (NetOutcome.ok helloPayload)) = 1 ∧
      ∃ tail,
        submitActions (Submission.text "hi") (NetOutcome.ok helloPayload) =
          JsAction.showLoading :: JsAction.dispatch r :: tail :=
  c3_loading_lifecycle (Submission.text "hi") (NetOutcome.ok helloPayload)
    initPage (by decide)

/-! ## Claims about the recording lifecycle -/

theorem run_append (tr : List Event) (s : AppState) (e : Event) :
    run s (tr ++ [e]) =
      match run s tr with
      | none => none
      | some s1 => step s1 e := by
  induction tr generalizing s with
  | nil =>
      simp only [List.nil_append, run]
      cases step s e <;> rfl
  | cons e0 tr ih =>
      simp only [List.cons_append, run]
      cases step s e0 with
      | none => rfl
      | some s1 => exact ih s1

/-- The shortest complete recording interaction: start, permission
granted, stop clicked, device stop completed (upload dispatched but not
yet settled). -/
def stopTrace : List Event :=
  [Event.clickStart, Event.permissionGrant, Event.clickStop,
   Event.recorderStopEvent 0]

/-- C1 counterexample: immediately after the device-stop completion
handler has run (and the dispatched upload has not yet settled:
`pendingUploads = 1`), the recording affordances are not in the idle
presentation — the start control is still hidden and the timer still
visible — refuting the claim that they are reset in that handler before
the upload settles. -/
theorem c1_counterexample :
    (run initApp stopTrace).map (fun s => isIdlePresentation s.page) =
      some false ∧
    (run initApp stopTrace).map (fun s => s.pendingUploads) = some 1 ∧
    (run initApp stopTrace).map (fun s => s.page.startBtnHidden) =
      some true ∧
    (run initApp stopTrace).map (fun s => s.page.timerHidden) =
      some false := by
  refine ⟨?_, ?_, ?_, ?_⟩ <;> rfl

/-- C1 amended: the recording affordances are reset to the idle
presentation in the completion handlers of the upload — once the
`RecordingSubmission` settles — in the success and the failure branch
alike, so independent of the upload outcome, but only after the upload
settles rather than in the device-stop handler. -/
theorem c1_reset_after_upload_settles (tr : List Event) (net : NetOutcome)
    (s1 : AppState)
    (h : run initApp (tr ++ [Event.uploadSettle net]) = some s1) :
    isIdlePresentation s1.page = true := by
  rw [run_append] at h
  cases hrun : run initApp tr with
  | none => rw [hrun] at h; simp at h
  | some s0 =>
      rw [hrun] at h
      unfold step at h
      by_cases hp : s0.pendingUploads = 0
      · simp [hp] at h
      · simp only [hp, if_false, Option.some.injEq] at h
        subst h
        rcases net with ⟨data⟩ | _
        · by_cases hs : data.status = "success" <;>
            simp [hs, isIdlePresentation, displayResults]
        · simp [isIdlePresentation]

theorem c1_reset_after_upload_settles_witness :
    isIdlePresentation
      ((run initApp (stopTrace ++ [Event.uploadSettle NetOutcome.err])).getD
        initApp).page = true :=
  c1_reset_after_upload_settles stopTrace NetOutcome.err
    ((run initApp (stopTrace ++ [Event.uploadSettle NetOutcome.err])).getD
      initApp) (by rfl)

theorem countP_set_add {α : Type} (p : α → Bool) :
    ∀ (l : List α) (i : Nat) (x a : α), l.get? i = some a →
      (l.set i x).countP p + (if p a then 1 else 0) =
        l.countP p + (if p x then 1 else 0) := by
  intro l
  induction l with
  | nil => intro i x a h; simp at h
  | cons b l ih =>
      intro i x a h
      cases i with
      | zero =>
          simp only [List.get?] at h
          injection h with h
          subst h
          simp only [List.set, List.countP_cons]
          by_cases hx : p x = true <;> by_cases hb : p b = true <;>
            simp [hx, hb] <;> omega
      | succ i =>
          simp only [List.get?] at h
          have hrec := ih i x a h
          simp only [List.set, List.countP_cons]
          by_cases hb : p b = true <;> simp [hb] <;> omega

theorem mem_or_eq_of_mem_set {α : Type} :
    ∀ (l : List α) (i : Nat) (x b : α), b ∈ l.set i x → b ∈ l ∨ b = x := by
  intro l
  induction l with
  | nil => intro i x b h; simp [List.set] at h
  | cons a l ih =>
      intro i x b h
      cases i with
      | zero =>
          simp only [List.set, List.mem_cons] at h
          rcases h with h | h
          · right; exact h
          · left; exact List.mem_cons_of_mem _ h
      | succ i =>
          simp only [List.set, List.mem_cons] at h
          rcases h with h | h
          · left; simp [h]
          · rcases ih i x b h with h2 | h2
            · left; exact List.mem_cons_of_mem _ h2
            · right; exact h2

/-- Invariant of the serial-start lifecycle: at most one of a pending
permission request, an active recorder, a pending stop event, or a
pending upload exists at a time; while the start control is visible
only a permission request may be outstanding; and a recorder whose
stop event fired is inactive. -/
def RecInv (s : AppState) : Prop :=
  s.pendingPermission + activeSessions s + stopsPending s +
    s.pendingUploads ≤ 1 ∧
  (s.page.startBtnHidden = false →
    activeSessions s + stopsPending s + s.pendingUploads = 0) ∧
  ∀ r ∈ s.recorders, r.stopFired = true → r.stopped = true

theorem recInv_init : RecInv initApp := by
  refine ⟨?_, ?_, ?_⟩ <;>
    simp [initApp, initPage, activeSessions, stopsPending]


theorem recInv_step (s s1 : AppState) (e : Event) (hinv : RecInv s)
    (h : stepSerial s e = some s1) : RecInv s1 := by
  obtain ⟨hsum, hidle, hfired⟩ := hinv
  cases e with
  | clickStart =>
      simp only [stepSerial, step] at h
      split at h
      · split at h
        · exact absurd h (by simp)
        · rename_i hb
          injection h with h
          subst h
          have h0 := hidle (by simpa using hb)
          refine ⟨?_, ?_, hfired⟩
          · simp only [activeSessions, stopsPending] at h0 hsum ⊢
            omega
          · intro _
            simpa [activeSessions, stopsPending] using h0
      · exact absurd h (by simp)
  | permissionGrant =>
      simp only [stepSerial, step] at h
      split at h
      · exact absurd h (by simp)
      · rename_i hp
        injection h with h
        subst h
        refine ⟨?_, ?_, ?_⟩
        · simp only [activeSessions, stopsPending, List.countP_append,
            List.countP_cons, List.countP_nil] at hsum ⊢
          simp
          omega
        · intro hb1
          exact absurd hb1 (by simp)
        · intro r hr hf
          rcases List.mem_append.mp hr with h2 | h2
          · exact hfired r h2 hf
          · simp only [List.mem_singleton] at h2
            subst h2
            exact absurd hf (by simp)
  | permissionDeny =>
      simp only [stepSerial, step] at h
      split at h
      · exact absurd h (by simp)
      · rename_i hp
        injection h with h
        subst h
        refine ⟨?_, ?_, hfired⟩
        · simp only [activeSessions, stopsPending] at hsum ⊢
          omega
        · intro hb1
          have h0 := hidle (by simpa using hb1)
          simpa [activeSessions, stopsPending] using h0
  | dataAvailable i chunk =>
      simp only [stepSerial, step] at h
      split at h
      · exact absurd h (by simp)
      · split at h
        · exact absurd h (by simp)
        · injection h with h
          subst h
          exact ⟨hsum, hidle, hfired⟩
  | clickStop =>
      simp only [stepSerial, step] at h
      split at h
      · exact absurd h (by simp)
      · split at h
        · injection h with h; subst h; exact ⟨hsum, hidle, hfired⟩
        · rename_i i hmr
          split at h
          · injection h with h; subst h; exact ⟨hsum, hidle, hfired⟩
          · rename_i r hg
            split at h
            · injection h with h; subst h; exact ⟨hsum, hidle, hfired⟩
            · rename_i hstopped
              injection h with h
              subst h
              have hnotf : r.stopFired = false := by
                cases hsf : r.stopFired
                · rfl
                · exact absurd (hfired r (List.get?_mem hg) hsf)
                    (by simpa using hstopped)
              have hAc := countP_set_add (fun q => !q.stopped)
                s.recorders i { r with stopped := true } r hg
              have hPc := countP_set_add
                (fun q => q.stopped && !q.stopFired)
                s.recorders i { r with stopped := true } r hg
              have hstop2 : r.stopped = false := by simpa using hstopped
              simp [hstop2, hnotf] at hAc hPc
              have hpos : 0 < s.recorders.countP fun q => !q.stopped :=
                List.countP_pos.mpr
                  ⟨r, List.get?_mem hg, by simp [hstop2]⟩
              refine ⟨?_, ?_, ?_⟩
              · simp only [activeSessions, stopsPending] at hsum ⊢
                simp only [hnotf]
                omega
              · intro hb1
                have h0 := hidle hb1
                simp only [activeSessions, stopsPending] at h0 ⊢
                simp only [hnotf]
                omega
              · intro q hq hf
                rcases mem_or_eq_of_mem_set _ _ _ _ hq with h2 | h2
                · exact hfired q h2 hf
                · subst h2; rfl
  | recorderStopEvent i =>
      simp only [stepSerial, step] at h
      split at h
      · exact absurd h (by simp)
      · rename_i r hg
        split at h
        · rename_i hcond
          injection h with h
          subst h
          have hstopped : r.stopped = true :=
            (Bool.and_eq_true _ _).mp hcond |>.1
          have hnotf : r.stopFired = false := by
            have := (Bool.and_eq_true _ _).mp hcond |>.2
            simpa using this
          have hAc := countP_set_add (fun q => !q.stopped)
            s.recorders i { r with stopFired := true } r hg
          have hPc := countP_set_add
            (fun q => q.stopped && !q.stopFired)
            s.recorders i { r with stopFired := true } r hg
          simp [hstopped, hnotf] at hAc hPc
          have hpos : 0 < s.recorders.countP
              fun q => q.stopped && !q.stopFired :=
            List.countP_pos.mpr ⟨r, List.get?_mem hg, hcond⟩
          refine ⟨?_, ?_, ?_⟩
          · simp only [activeSessions, stopsPending] at hsum ⊢
            simp only [hstopped]
            omega
          · intro hb1
            have h0 := hidle (by simpa using hb1)
            simp only [activeSessions, stopsPending] at h0 ⊢
            simp only [hstopped]
            omega
          · intro q hq hf
            rcases mem_or_eq_of_mem_set _ _ _ _ hq with h2 | h2
            · exact hfired q h2 hf
            · subst h2; exact hstopped
        · exact absurd h (by simp)
  | uploadSettle net =>
      simp only [stepSerial, step] at h
      split at h
      · exact absurd h (by simp)
      · rename_i hp
        simp only [Option.some.injEq] at h
        subst h
        refine ⟨?_, ?_, ?_⟩
        · simp only [activeSessions, stopsPending] at hsum ⊢
          omega
        · intro _
          simp only [activeSessions, stopsPending] at hsum ⊢
          omega
        · intro q hq hf
          exact hfired q hq hf

theorem runSerial_le_one :
    ∀ (tr : List Event) (s : AppState), RecInv s →
      activeCountOpt (runSerial s tr) ≤ 1 := by
  intro tr
  induction tr with
  | nil =>
      intro s hinv
      have := hinv.1
      simp only [runSerial, activeCountOpt]
      omega
  | cons e tr ih =>
      intro s hinv
      simp only [runSerial]
      cases hst : stepSerial s e with
      | none => simp [activeCountOpt]
      | some s2 => exact ih s2 (recInv_step s s2 e hinv hst)

/-- Two start clicks while the permission request is still pending
(the start control is only hidden on grant, so both clicks are
enabled), then both grants arrive. -/
def doubleStartTrace : List Event :=
  [Event.clickStart, Event.clickStart, Event.permissionGrant,
   Event.permissionGrant]

/-- C2 counterexample: the double-start trace is a reachable sequence
of user actions and device events (every click happens while its
control is visible), yet it ends with two recorders capturing at once,
refuting the at-most-one-active-session invariant; the serial-start
restriction refuses the same trace. -/
theorem c2_counterexample :
    (run initApp doubleStartTrace).map activeSessions = some 2 ∧
    runSerial initApp doubleStartTrace = none := by
  exact ⟨rfl, rfl⟩

/-- C2 amended: provided the start control is never activated while a
permission request is pending (the serial-start restriction), every
reachable state has at most one active recording session; moreover, on
every step of the unrestricted lifecycle the chunk sequence is reset to
empty exactly by the permission-grant transition (session start), is
extended by exactly one buffer by a capture callback, and is left
unchanged by every other event. -/
theorem c2_single_session_and_chunks :
    (∀ tr : List Event, activeCountOpt (runSerial initApp tr) ≤ 1) ∧
    (∀ (s s1 : AppState) (e : Event), step s e = some s1 →
      (e = Event.permissionGrant ∧ s1.audioChunks = []) ∨
      (∃ i chunk, e = Event.dataAvailable i chunk ∧
        s1.audioChunks = s.audioChunks ++ [chunk]) ∨
      s1.audioChunks = s.audioChunks) := by
  constructor
  · intro tr
    exact runSerial_le_one tr initApp recInv_init
  · intro s s1 e h
    cases e with
    | clickStart =>
        right; right
        simp only [step] at h
        split at h
        · exact absurd h (by simp)
        · injection h with h; subst h; rfl
    | permissionGrant =>
        left
        simp only [step] at h
        split at h
        · exact absurd h (by simp)
        · injection h with h; subst h; exact ⟨rfl, rfl⟩
    | permissionDeny =>
        right; right
        simp only [step] at h
        split at h
        · exact absurd h (by simp)
        · injection h with h; subst h; rfl
    | dataAvailable i chunk =>
        right; left
        simp only [step] at h
        split at h
        · exact absurd h (by simp)
        · split at h
          · exact absurd h (by simp)
          · injection h with h; subst h; exact ⟨i, chunk, rfl, rfl⟩
    | clickStop =>
        right; right
        simp only [step] at h
        split at h
        · exact absurd h (by simp)
        · split at h
          · injection h with h; subst h; rfl
          · split at h
            · injection h with h; subst h; rfl
            · split at h
              · injection h with h; subst h; rfl
              · injection h with h; subst h; rfl
    | recorderStopEvent i =>
        right; right
        simp only [step] at h
        split at h
        · exact absurd h (by simp)
        · split at h
          · injection h with h; subst h; rfl
          · exact absurd h (by simp)
    | uploadSettle net =>
        right; right
        simp only [step] at h
        split at h
        · exact absurd h (by simp)
        · simp only [Option.some.injEq] at h
          subst h
          rfl

/-- Concrete state with one pending permission request, for the C2
witness. -/
def grantReadyState : AppState :=
  { initApp with pendingPermission := 1 }

theorem c2_single_session_and_chunks_witness :
    activeCountOpt (runSerial initApp
      [Event.clickStart, Event.permissionGrant]) ≤ 1 ∧
    ((Event.permissionGrant = Event.permissionGrant ∧
      ((step grantReadyState Event.permissionGrant).getD
        initApp).audioChunks = []) ∨
     (∃ i chunk, Event.permissionGrant = Event.dataAvailable i chunk ∧
      ((step grantReadyState Event.permissionGrant).getD
        initApp).audioChunks = grantReadyState.audioChunks ++ [chunk]) ∨
     ((step grantReadyState Event.permissionGrant).getD
       initApp).audioChunks = grantReadyState.audioChunks) :=
  ⟨c2_single_session_and_chunks.1 [Event.clickStart, Event.permissionGrant],
   c2_single_session_and_chunks.2 grantReadyState
     ((step grantReadyState Event.permissionGrant).getD initApp)
     Event.permissionGrant (by rfl)⟩
